import Mathlib

/-!
Shallow embedding of `geocode_csv_to_gpx.py` (CSV address records → geocoded
GPX waypoints) together with proofs about its extraction, validation,
two-stage geocoding and serialization logic.

Modelling conventions:
* CSV parsing itself (Python's `csv.reader`) is external; every function
  below receives rows as already-parsed lists of column strings.
* Coordinate values travel through the program verbatim (JSON number →
  f-string interpolation), so they are modelled as their textual rendering:
  a pair of strings `(longitude, latitude)`.
* The external geocoder `lookup` returns `none` for a transport/parsing
  error (an exception inside the `try` block) and `some l` for a parsed
  feature list `l`, each feature carrying one coordinate pair.
* Python `print` calls are modelled as explicit diagnostic/trace lists.
* An uncaught `IndexError` (possible in `get_columns` for a negative
  computed index below `-len(row)`) is modelled as `Option.none` at the
  function's result, propagated outward through the pipeline.
-/

set_option maxRecDepth 20000

namespace Geocode

/-- Coordinates as the textual (longitude, latitude) pair taken verbatim
from the geocoder response. -/
abbrev Coords := String × String

/-- `Place` dataclass: line number, joined address, name and description
strings, and the optional coordinates (Python's empty list default is
`none`). -/
structure Place where
  lineno : Nat
  addr : String
  name : String
  desc : String
  coords : Option Coords := none
deriving DecidableEq

/-- The configuration slice of the `GeocodeCsvToGPX` dataclass that the
pipeline logic reads (file handling is external). `skip_first_lines` is
`Option Int` because `argparse` hands the program `None` when the flag is
absent. -/
structure Config where
  addr_cols : List Int := []
  name_cols : List Int := []
  desc_cols : List Int := []
  skip_first_lines : Option Int := none
  dryrun : Bool := false
  verbose : Bool := false
deriving DecidableEq

/-- Python list indexing `cols[i]` for an `int` index: negative indices
count from the end; `none` is an `IndexError`. -/
def pyIndex (cols : List String) (i : Int) : Option String :=
  let j := if i < 0 then i + cols.length else i
  if 0 ≤ j then cols.get? j.toNat else none

/-- The `for col in subset` loop of `get_columns`: 1-based user index is
decremented, an index at or past the row length stops the loop, the
delimiter is appended only when `result` is already non-empty, and the
selected column text is appended. -/
def get_columns_loop (cols : List String) (delimiter : String) :
    String → List Int → Option String
  | result, [] => some result
  | result, c :: rest =>
    let col := c - 1
    if (cols.length : Int) ≤ col then some result
    else
      match pyIndex cols col with
      | none => none
      | some s =>
        get_columns_loop cols delimiter
          ((result ++ (if result = "" then "" else delimiter)) ++ s) rest

/-- `get_columns(cols, subset, delimiter)`: empty (or `None`) subset yields
the empty string, otherwise the accumulation loop runs. -/
def get_columns (cols : List String) (subset : List Int) (delimiter : String) :
    Option String :=
  if subset.isEmpty then some "" else get_columns_loop cols delimiter "" subset

/-- The rejection diagnostic printed by `get_place_from_line`. -/
def skip_diag (lineno : Nat) (nm ad : String) : String :=
  "Skipping place from line number " ++ toString lineno ++ " without name (" ++
    nm ++ ") or address (" ++ ad ++ ")"

/-- `get_place_from_line(columns, lineno)`: zero columns → silently no
place; otherwise extract address/name/description, reject (with a printed
diagnostic) when name or address is empty, else build the `Place`.
Result: `none` models an uncaught `IndexError`, `some (opt, diags)` the
normal return value plus printed diagnostics. -/
def get_place_from_line (g : Config) (columns : List String) (lineno : Nat) :
    Option (Option Place × List String) := do
  if columns.length = 0 then
    pure (none, [])
  else
    let addr ← get_columns columns g.addr_cols ", "
    let name ← get_columns columns g.name_cols " "
    let desc ← get_columns columns g.desc_cols ", "
    if name = "" ∨ addr = "" then
      pure (none, [ skip_diag lineno name addr])
    else
      pure (some { lineno := lineno, addr := addr, name := name, desc := desc }, [])

/-- The skip test `self.skip_first_lines and lineno <= self.skip_first_lines`
(`None` and `0` are falsy). -/
def line_skipped (g : Config) (lineno : Nat) : Bool :=
  match g.skip_first_lines with
  | none => false
  | some n => decide (n ≠ 0 ∧ (lineno : Int) ≤ n)

/-- The `for lineno, columns in enumerate(reader, start=1)` loop of
`get_places_from_csv`, with the current line number made explicit. -/
def places_loop (g : Config) : Nat → List (List String) →
    Option (List Place × List String)
  | _, [] => some ([], [])
  | lineno, row :: rest =>
    if line_skipped g lineno then places_loop g (lineno + 1) rest
    else do
      let (pl, ds) ← get_place_from_line g row lineno
      let (ps, ds2) ← places_loop g (lineno + 1) rest
      pure (pl.toList ++ ps, ds ++ ds2)

/-- `get_places_from_csv`: all places of one file, line numbers from 1. -/
def get_places_from_csv (g : Config) (rows : List (List String)) :
    Option (List Place × List String) :=
  places_loop g 1 rows

/-- The `for file in self.files: self.places += ...` loop of `run`:
concatenate the per-file place lists in argument order. -/
def extract_all (g : Config) :
    List (List (List String)) → Option (List Place × List String)
  | [] => some ([], [])
  | f :: rest => do
    let (ps, ds) ← get_places_from_csv g f
    let (ps2, ds2) ← extract_all g rest
    pure (ps ++ ps2, ds ++ ds2)

/-- The error diagnostic printed by `geocode_address` when the lookup
raises (exception text elided). -/
def geocode_fail_diag (address : String) : String :=
  "Geocoding for address " ++ address ++ " failed"

/-- `geocode_address(address)`: one HTTPS query against the injected
lookup. An exception (`lookup = none`) is caught and logged; an empty
feature list falls through to `return None`; otherwise the first feature's
coordinate pair is returned. Result: (coordinates-or-none, printed
diagnostics). The query string performed is the argument itself. -/
def geocode_address (lookup : String → Option (List Coords))
    (address : String) : Option Coords × List String :=
  match lookup address with
  | none => (none, [geocode_fail_diag address])
  | some [] => (none, [])
  | some (c :: _) => (some c, [])

/-- The miss diagnostic printed by `get_coordinates` when both stages
yield nothing. -/
def miss_diag (nm : String) (lineno : Nat) (ad : String) : String :=
  "Could not obtain coordinates for place " ++ nm ++ " from line number " ++
    toString lineno ++ " with address: " ++ ad

/-- One iteration of the `for place in self.places` loop of
`get_coordinates`: stage 1 queries `"{name}, {addr}"`, stage 2 (only when
stage 1 produced nothing) queries the address alone, a double miss prints
the diagnostic and leaves the place untouched. Result: (updated place,
queries performed, printed diagnostics). -/
def get_coordinates_step (lookup : String → Option (List Coords))
    (p : Place) : Place × List String × List String :=
  let q1 := p.name ++ ", " ++ p.addr
  let (r1, d1) := geocode_address lookup q1
  match r1 with
  | some c => ({ p with coords := some c }, [q1], d1)
  | none =>
    let (r2, d2) := geocode_address lookup p.addr
    match r2 with
    | some c => ({ p with coords := some c }, [q1, p.addr], d1 ++ d2)
    | none => (p, [q1, p.addr], d1 ++ d2 ++ [miss_diag p.name p.lineno p.addr])

/-- `get_coordinates()`: each place is resolved independently and in
order; queries and diagnostics are concatenated in order. -/
def get_coordinates (lookup : String → Option (List Coords))
    (places : List Place) : List Place × List String × List String :=
  (places.map (fun p => (get_coordinates_step lookup p).1),
   places.flatMap (fun p => (get_coordinates_step lookup p).2.1),
   places.flatMap (fun p => (get_coordinates_step lookup p).2.2))

/-- Per-character XML escaping: `xml.sax.saxutils.escape` with the two
extra entities the program passes (`'` and `"`). The sequential
`str.replace` calls of the library function amount to this character map
because `&` is replaced first and no replacement text contains a character
replaced later. -/
def escape_char (c : Char) : List Char :=
  if c = '&' then ['&', 'a', 'm', 'p', ';']
  else if c = '<' then ['&', 'l', 't', ';']
  else if c = '>' then ['&', 'g', 't', ';']
  else if c = '\'' then ['&', 'a', 'p', 'o', 's', ';']
  else if c = '"' then ['&', 'q', 'u', 'o', 't', ';']
  else [c]

/-- Escaping over a character list. -/
def escape_chars (l : List Char) : List Char :=
  l.flatMap escape_char

/-- `xml_escape(text)`. -/
def xml_escape (s : String) : String :=
  ⟨escape_chars s.data⟩

/-- Worker for named-entity decoding; the fuel argument (instantiated
with the list length, which bounds the number of steps) only makes the
recursion structural. -/
def unescape_go : Nat → List Char → List Char
  | 0, l => l
  | _ + 1, [] => []
  | f + 1, c :: t =>
    if c = '&' then
      if t.take 4 = ['a', 'm', 'p', ';'] then '&' :: unescape_go f (t.drop 4)
      else if t.take 3 = ['l', 't', ';'] then '<' :: unescape_go f (t.drop 3)
      else if t.take 3 = ['g', 't', ';'] then '>' :: unescape_go f (t.drop 3)
      else if t.take 5 = ['a', 'p', 'o', 's', ';'] then '\'' :: unescape_go f (t.drop 5)
      else if t.take 5 = ['q', 'u', 'o', 't', ';'] then '"' :: unescape_go f (t.drop 5)
      else c :: unescape_go f t
    else c :: unescape_go f t

/-- Named-entity decoding, the inverse reading of the five entities
produced by `xml_escape`; any other character is passed through. -/
def unescape_chars (l : List Char) : List Char :=
  unescape_go l.length l

/-- Entity decoding at the string level. -/
def xml_unescape (s : String) : String :=
  ⟨unescape_chars s.data⟩

/-- Scans a character list and checks that `<`, `>`, `'`, `"` never occur
and `&` occurs only as the head of one of the five named entities — i.e.
the five reserved characters appear in entity form only, never raw. -/
def well_escaped_go : Nat → List Char → Bool
  | 0, _ => true
  | _ + 1, [] => true
  | f + 1, c :: t =>
    if c = '&' then
      if t.take 4 = ['a', 'm', 'p', ';'] then well_escaped_go f (t.drop 4)
      else if t.take 3 = ['l', 't', ';'] then well_escaped_go f (t.drop 3)
      else if t.take 3 = ['g', 't', ';'] then well_escaped_go f (t.drop 3)
      else if t.take 5 = ['a', 'p', 'o', 's', ';'] then well_escaped_go f (t.drop 5)
      else if t.take 5 = ['q', 'u', 'o', 't', ';'] then well_escaped_go f (t.drop 5)
      else false
    else if c = '<' ∨ c = '>' ∨ c = '\'' ∨ c = '"' then false
    else well_escaped_go f t

/-- Entity-form check over a whole character list (fuel instantiated with
the length). -/
def well_escaped (l : List Char) : Bool :=
  well_escaped_go l.length l

/-- The fixed GPX header written by `write_places_to_gpx`. -/
def gpx_header : String :=
  "<?xml version=\"1.0\" encoding=\"UTF-8\" standalone=\"yes\"?>\n<gpx version=\"1.1\">\n"

/-- The fixed GPX trailer. -/
def gpx_trailer : String :=
  "</gpx>\n"

/-- `write_places_to_gpx()`: the file content accumulated by the
sequential `file.write` calls — header, then per place with coordinates a
`wpt` block (`lon` = first coordinate, `lat` = second, escaped name,
description element only when `place.desc` is truthy), then the trailer.
Places without coordinates are skipped by `continue`. -/
def write_places_to_gpx (places : List Place) : String :=
  (places.foldl (fun acc p =>
    match p.coords with
    | none => acc
    | some (lon, lat) =>
      let acc1 := acc ++ "  <wpt lon=\"" ++ lon ++ "\" lat=\"" ++ lat ++
        "\">\n" ++ "    <name>" ++ xml_escape p.name ++ "</name>\n"
      let acc2 := if p.desc = "" then acc1
        else acc1 ++ "    <desc>" ++ xml_escape p.desc ++ "</desc>\n"
      acc2 ++ "  </wpt>\n") gpx_header) ++ gpx_trailer

/-- Observable outcome of one `run()` call: the final place collection,
the places echoed by `print(place)`, the geocoding queries performed, the
diagnostics printed, and the output file content (`none` when no file was
written). -/
structure RunResult where
  places : List Place
  printedPlaces : List Place
  queries : List String
  diagnostics : List String
  written : Option String
deriving DecidableEq

/-- `run()`: extract every file, in dry-run (or verbose) mode print each
place, in dry-run mode return before geocoding and before opening the
output file; otherwise geocode and write the GPX file. -/
def run (g : Config) (lookup : String → Option (List Coords))
    (fileRows : List (List (List String))) : Option RunResult := do
  let (places, ds) ← extract_all g fileRows
  let printed := if g.dryrun || g.verbose then places else []
  if g.dryrun then
    pure { places := places, printedPlaces := printed, queries := [],
           diagnostics := ds, written := none }
  else
    let (places2, qs, ds2) := get_coordinates lookup places
    pure { places := places2, printedPlaces := printed, queries := qs,
           diagnostics := ds ++ ds2, written := some (write_places_to_gpx places2) }

/-!
Specification-side definitions: reformulations of the observable behavior,
written from the spec's and claims' wording, to be compared with the source
translations above.
-/

/-- One accumulation step of `get_columns`: the delimiter is inserted
before a part only when the text collected so far is non-empty. -/
def join_step (delimiter acc s : String) : String :=
  (acc ++ (if acc = "" then "" else delimiter)) ++ s

/-- Concatenation of parts with the delimiter inserted only before a part
that follows a non-empty accumulated text (leading empty parts contribute
no delimiter). -/
def join_nonempty (delimiter : String) (parts : List String) : String :=
  parts.foldl (join_step delimiter) ""

/-- The column texts collected for a configured index list: indices are
taken in order up to (excluding) the first one that is out of range for
the row, each mapped to its 0-based column. -/
def collected (cols : List String) (subset : List Int) : List String :=
  (subset.takeWhile (fun i => decide (i - 1 < (cols.length : Int)))).map
    (fun i => cols.getD (i - 1).toNat "")

/-- All three configured index lists contain only 1-based (positive)
indices. -/
def pos_cols (g : Config) : Prop :=
  (∀ i ∈ g.addr_cols, 1 ≤ i) ∧ (∀ i ∈ g.name_cols, 1 ≤ i) ∧
    (∀ i ∈ g.desc_cols, 1 ≤ i)

instance (g : Config) : Decidable (pos_cols g) := by
  unfold pos_cols; infer_instance

lemma get_columns_loop_pos (cols : List String) (d : String) :
    ∀ (subset : List Int) (acc : String), (∀ i ∈ subset, 1 ≤ i) →
      get_columns_loop cols d acc subset =
        some ((collected cols subset).foldl (join_step d) acc) := by
  intro subset
  induction subset with
  | nil => intro acc _; simp [get_columns_loop, collected]
  | cons i rest ih =>
    intro acc h
    have hi : 1 ≤ i := h i (by simp)
    by_cases hlen : (cols.length : Int) ≤ i - 1
    · have : ¬ (i - 1 < (cols.length : Int)) := by omega
      simp [get_columns_loop, hlen, collected, List.takeWhile_cons, this]
    · have hlt : i - 1 < (cols.length : Int) := by omega
      have hnat : (i - 1).toNat < cols.length := by omega
      have hget : cols.get? (i - 1).toNat = some (cols.getD (i - 1).toNat "") := by
        rw [List.get?_eq_getElem?, List.getElem?_eq_getElem hnat,
          List.getD_eq_getElem?_getD, List.getElem?_eq_getElem hnat]
        rfl
      have hpy : pyIndex cols (i - 1) = some (cols.getD (i - 1).toNat "") := by
        unfold pyIndex
        have h0 : ¬ (i - 1 < 0) := by omega
        have h1 : (0 : Int) ≤ i - 1 := by omega
        simp only [h0, if_false, h1, if_true, hget]
      have hc : collected cols (i :: rest) =
          cols.getD (i - 1).toNat "" :: collected cols rest := by
        simp [collected, List.takeWhile_cons, hlt]
      have hstep : get_columns_loop cols d acc (i :: rest) =
          get_columns_loop cols d
            ((acc ++ (if acc = "" then "" else d)) ++ cols.getD (i - 1).toNat "")
            rest := by
        simp only [get_columns_loop, if_neg hlen, hpy]
      rw [hstep, ih _ (fun j hj => h j (List.mem_cons_of_mem i hj)), hc]
      rfl

/-- Under 1-based indices `get_columns` never fails and computes the
conditional-delimiter concatenation of the collected columns. -/
lemma get_columns_pos (cols : List String) (subset : List Int) (d : String)
    (h : ∀ i ∈ subset, 1 ≤ i) :
    get_columns cols subset d = some (join_nonempty d (collected cols subset)) := by
  by_cases hs : subset.isEmpty
  · cases subset with
    | nil => simp [get_columns, join_nonempty, collected]
    | cons a l => simp at hs
  · unfold get_columns
    rw [if_neg hs, get_columns_loop_pos cols d subset "" h]
    rfl

/-- One extracted field: the collected column texts under the
conditional-delimiter concatenation. -/
def field_of (cols : List String) (subset : List Int) (d : String) : String :=
  join_nonempty d (collected cols subset)

/-- Claim-side description of `get_place_from_line`: zero columns yield
nothing silently; empty extracted name or address yields a rejection with
its diagnostic; otherwise the validated `Place` (coordinates absent). -/
def place_line_spec (g : Config) (columns : List String) (lineno : Nat) :
    Option Place × List String :=
  if columns.length = 0 then (none, [])
  else
    let ad := field_of columns g.addr_cols ", "
    let nm := field_of columns g.name_cols " "
    let de := field_of columns g.desc_cols ", "
    if nm = "" ∨ ad = "" then (none, [ skip_diag lineno nm ad])
    else (some { lineno := lineno, addr := ad, name := nm, desc := de }, [])

lemma get_place_from_line_pos (g : Config) (hg : pos_cols g)
    (columns : List String) (lineno : Nat) :
    get_place_from_line g columns lineno =
      some (place_line_spec g columns lineno) := by
  obtain ⟨ha, hn, hd⟩ := hg
  unfold get_place_from_line place_line_spec
  by_cases h0 : columns.length = 0
  · simp [h0]
  · rw [if_neg h0, if_neg h0]
    rw [get_columns_pos _ _ _ ha, get_columns_pos _ _ _ hn,
      get_columns_pos _ _ _ hd]
    simp only [field_of, Option.bind_eq_bind, Option.some_bind]
    split <;> rfl

lemma place_line_spec_inv (g : Config) (columns : List String) (lineno : Nat)
    (p : Place) (hp : (place_line_spec g columns lineno).1 = some p) :
    p.lineno = lineno ∧ p.coords = none ∧ p.name ≠ "" ∧ p.addr ≠ "" := by
  unfold place_line_spec at hp
  by_cases h0 : columns.length = 0
  · simp [h0] at hp
  · rw [if_neg h0] at hp
    by_cases hv : field_of columns g.name_cols " " = "" ∨
        field_of columns g.addr_cols ", " = ""
    · simp only [hv, if_true] at hp
      simp at hp
    · simp only [hv, if_false] at hp
      push_neg at hv
      simp only [Option.some.injEq] at hp
      subst hp
      exact ⟨rfl, rfl, hv.1, hv.2⟩

/-- Physical records of a file numbered from a given starting line
number. -/
def numbered {α : Type} : Nat → List α → List (Nat × α)
  | _, [] => []
  | n, a :: l => (n, a) :: numbered (n + 1) l

/-- Claim-side description of one file's extraction: number every record
starting at `n`, discard the skipped line numbers, then collect the
validated places and the printed diagnostics. -/
def places_spec_from (g : Config) (n : Nat) (rows : List (List String)) :
    List Place × List String :=
  let keep := (numbered n rows).filter (fun e => ! line_skipped g e.1)
  (keep.filterMap (fun e => (place_line_spec g e.2 e.1).1),
   keep.flatMap (fun e => (place_line_spec g e.2 e.1).2))

lemma places_loop_pos (g : Config) (hg : pos_cols g) :
    ∀ (rows : List (List String)) (n : Nat),
      places_loop g n rows = some (places_spec_from g n rows) := by
  intro rows
  induction rows with
  | nil => intro n; simp [places_loop, places_spec_from, numbered]
  | cons row rest ih =>
    intro n
    by_cases hs : line_skipped g n
    · rw [show places_loop g n (row :: rest) = places_loop g (n + 1) rest from by
        simp [places_loop, hs]]
      rw [ih (n + 1)]
      simp [places_spec_from, numbered, List.filter_cons, hs]
    · rw [show places_loop g n (row :: rest) = (do
        let (pl, ds) ← get_place_from_line g row n
        let (ps, ds2) ← places_loop g (n + 1) rest
        pure (pl.toList ++ ps, ds ++ ds2) :
          Option (List Place × List String)) from by
        simp [places_loop, hs]]
      rw [get_place_from_line_pos g ⟨hg.1, hg.2.1, hg.2.2⟩ row n, ih (n + 1)]
      simp only [Option.bind_some, Option.bind]
      unfold places_spec_from
      simp only [numbered, List.filter_cons, hs, Bool.not_false, if_true,
        List.filterMap_cons, List.flatMap_cons]
      cases hpl : (place_line_spec g row n).1 with
      | none => simp [hpl]
      | some p => simp [hpl]

lemma get_places_from_csv_pos (g : Config) (hg : pos_cols g)
    (rows : List (List String)) :
    get_places_from_csv g rows = some (places_spec_from g 1 rows) :=
  places_loop_pos g hg rows 1

lemma extract_all_pos (g : Config) (hg : pos_cols g) :
    ∀ fileRows : List (List (List String)),
      extract_all g fileRows =
        some ((fileRows.map (fun f => (places_spec_from g 1 f).1)).flatten,
              (fileRows.map (fun f => (places_spec_from g 1 f).2)).flatten) := by
  intro fileRows
  induction fileRows with
  | nil => simp [extract_all]
  | cons f rest ih =>
    unfold extract_all
    rw [get_places_from_csv_pos g hg f, ih]
    simp [Option.bind]

lemma mem_numbered {α : Type} :
    ∀ (l : List α) (n : Nat) (e : Nat × α),
      e ∈ numbered n l → n ≤ e.1 ∧ e.1 < n + l.length := by
  intro l
  induction l with
  | nil => intro n e he; simp [numbered] at he
  | cons a rest ih =>
    intro n e he
    rw [numbered] at he
    rcases List.mem_cons.mp he with h | h
    · subst h; simp
    · have := ih (n + 1) e h
      simp only [List.length_cons]
      omega

/-- Claim-side description of one lookup stage: at least one candidate
returned → the first candidate's coordinate pair; an error (`none`) is
treated exactly like an empty candidate list. -/
def stage_result (lookup : String → Option (List Coords)) (q : String) :
    Option Coords :=
  match lookup q with
  | some (c :: _) => some c
  | _ => none

/-- Claim-side description of the two-stage resolver: query
`"{name}, {address}"` and stop on a hit, otherwise query the address
alone and stop on a hit, otherwise leave the coordinates absent. -/
def resolver_spec (lookup : String → Option (List Coords)) (p : Place) :
    Place :=
  match stage_result lookup (p.name ++ ", " ++ p.addr) with
  | some c => { p with coords := some c }
  | none =>
    match stage_result lookup p.addr with
    | some c => { p with coords := some c }
    | none => p

lemma geocode_address_fst (lookup : String → Option (List Coords))
    (q : String) : (geocode_address lookup q).1 = stage_result lookup q := by
  unfold geocode_address stage_result
  rcases lookup q with _ | ⟨_ | ⟨c, l⟩⟩ <;> rfl

lemma step_fst (lookup : String → Option (List Coords)) (p : Place) :
    (get_coordinates_step lookup p).1 = resolver_spec lookup p := by
  rcases h1 : lookup (p.name ++ ", " ++ p.addr) with _ | ⟨_ | ⟨c, l⟩⟩ <;>
    rcases h2 : lookup p.addr with _ | ⟨_ | ⟨c2, l2⟩⟩ <;>
      simp [get_coordinates_step, geocode_address, resolver_spec, stage_result,
        h1, h2]

lemma step_queries (lookup : String → Option (List Coords)) (p : Place) :
    (get_coordinates_step lookup p).2.1 =
      (if (stage_result lookup (p.name ++ ", " ++ p.addr)).isSome
       then [p.name ++ ", " ++ p.addr]
       else [p.name ++ ", " ++ p.addr, p.addr]) := by
  rcases h1 : lookup (p.name ++ ", " ++ p.addr) with _ | ⟨_ | ⟨c, l⟩⟩ <;>
    rcases h2 : lookup p.addr with _ | ⟨_ | ⟨c2, l2⟩⟩ <;>
      simp [get_coordinates_step, geocode_address, stage_result, h1, h2]

lemma step_diags (lookup : String → Option (List Coords)) (p : Place) :
    (get_coordinates_step lookup p).2.2 =
      (geocode_address lookup (p.name ++ ", " ++ p.addr)).2 ++
        (if (stage_result lookup (p.name ++ ", " ++ p.addr)).isSome then []
         else (geocode_address lookup p.addr).2 ++
           (if (stage_result lookup p.addr).isSome then []
            else [miss_diag p.name p.lineno p.addr])) := by
  rcases h1 : lookup (p.name ++ ", " ++ p.addr) with _ | ⟨_ | ⟨c, l⟩⟩ <;>
    rcases h2 : lookup p.addr with _ | ⟨_ | ⟨c2, l2⟩⟩ <;>
      simp [get_coordinates_step, geocode_address, stage_result, h1, h2]

lemma step_preserves (lookup : String → Option (List Coords)) (p : Place) :
    ((get_coordinates_step lookup p).1).lineno = p.lineno ∧
    ((get_coordinates_step lookup p).1).addr = p.addr ∧
    ((get_coordinates_step lookup p).1).name = p.name ∧
    ((get_coordinates_step lookup p).1).desc = p.desc := by
  rw [step_fst]
  unfold resolver_spec
  cases stage_result lookup (p.name ++ ", " ++ p.addr) with
  | some c => exact ⟨rfl, rfl, rfl, rfl⟩
  | none =>
    cases stage_result lookup p.addr with
    | some c => exact ⟨rfl, rfl, rfl, rfl⟩
    | none => exact ⟨rfl, rfl, rfl, rfl⟩

lemma run_dry (g : Config) (hd : g.dryrun = true)
    (lookup : String → Option (List Coords))
    (fileRows : List (List (List String))) (ps : List Place) (ds : List String)
    (he : extract_all g fileRows = some (ps, ds)) :
    run g lookup fileRows =
      some { places := ps, printedPlaces := ps, queries := [],
             diagnostics := ds, written := none } := by
  unfold run
  rw [he]
  simp [hd]

lemma run_wet (g : Config) (hd : g.dryrun = false)
    (lookup : String → Option (List Coords))
    (fileRows : List (List (List String))) (ps : List Place) (ds : List String)
    (he : extract_all g fileRows = some (ps, ds)) :
    run g lookup fileRows =
      some { places := (get_coordinates lookup ps).1,
             printedPlaces := if g.verbose then ps else [],
             queries := (get_coordinates lookup ps).2.1,
             diagnostics := ds ++ (get_coordinates lookup ps).2.2,
             written := some (write_places_to_gpx (get_coordinates lookup ps).1) } := by
  unfold run
  rw [he]
  simp [hd]

/-! Lemmas about the escaping round trip. -/

lemma escape_chars_cons (c : Char) (r : List Char) :
    escape_chars (c :: r) = escape_char c ++ escape_chars r := by
  simp [escape_chars]

lemma unescape_go_amp (f : Nat) (E : List Char) :
    unescape_go (f + 1) ('&' :: 'a' :: 'm' :: 'p' :: ';' :: E) =
      '&' :: unescape_go f E := by
  simp [unescape_go]

lemma unescape_go_lt (f : Nat) (E : List Char) :
    unescape_go (f + 1) ('&' :: 'l' :: 't' :: ';' :: E) =
      '<' :: unescape_go f E := by
  simp [unescape_go]

lemma unescape_go_gt (f : Nat) (E : List Char) :
    unescape_go (f + 1) ('&' :: 'g' :: 't' :: ';' :: E) =
      '>' :: unescape_go f E := by
  simp [unescape_go]

lemma unescape_go_apos (f : Nat) (E : List Char) :
    unescape_go (f + 1) ('&' :: 'a' :: 'p' :: 'o' :: 's' :: ';' :: E) =
      '\'' :: unescape_go f E := by
  simp [unescape_go]

lemma unescape_go_quot (f : Nat) (E : List Char) :
    unescape_go (f + 1) ('&' :: 'q' :: 'u' :: 'o' :: 't' :: ';' :: E) =
      '"' :: unescape_go f E := by
  simp [unescape_go]

lemma unescape_go_other (f : Nat) (c : Char) (E : List Char) (h : c ≠ '&') :
    unescape_go (f + 1) (c :: E) = c :: unescape_go f E := by
  simp [unescape_go, h]

lemma unescape_go_escape :
    ∀ (l : List Char) (f : Nat), (escape_chars l).length ≤ f →
      unescape_go f (escape_chars l) = l := by
  intro l
  induction l with
  | nil => intro f _; cases f <;> rfl
  | cons c r ih =>
    intro f hf
    rw [escape_chars_cons] at hf ⊢
    by_cases h1 : c = '&'
    · subst h1
      rw [show escape_char '&' = ['&', 'a', 'm', 'p', ';'] from by decide] at hf ⊢
      simp only [List.length_append, List.length_cons] at hf
      cases f with
      | zero => omega
      | succ f' =>
        rw [show (['&', 'a', 'm', 'p', ';'] ++ escape_chars r : List Char) =
          '&' :: 'a' :: 'm' :: 'p' :: ';' :: escape_chars r from rfl]
        rw [unescape_go_amp, ih f' (by omega)]
    · by_cases h2 : c = '<'
      · subst h2
        rw [show escape_char '<' = ['&', 'l', 't', ';'] from by decide] at hf ⊢
        simp only [List.length_append, List.length_cons] at hf
        cases f with
        | zero => omega
        | succ f' =>
          rw [show (['&', 'l', 't', ';'] ++ escape_chars r : List Char) =
            '&' :: 'l' :: 't' :: ';' :: escape_chars r from rfl]
          rw [unescape_go_lt, ih f' (by omega)]
      · by_cases h3 : c = '>'
        · subst h3
          rw [show escape_char '>' = ['&', 'g', 't', ';'] from by decide] at hf ⊢
          simp only [List.length_append, List.length_cons] at hf
          cases f with
          | zero => omega
          | succ f' =>
            rw [show (['&', 'g', 't', ';'] ++ escape_chars r : List Char) =
              '&' :: 'g' :: 't' :: ';' :: escape_chars r from rfl]
            rw [unescape_go_gt, ih f' (by omega)]
        · by_cases h4 : c = '\''
          · subst h4
            rw [show escape_char '\'' = ['&', 'a', 'p', 'o', 's', ';'] from
              by decide] at hf ⊢
            simp only [List.length_append, List.length_cons] at hf
            cases f with
            | zero => omega
            | succ f' =>
              rw [show (['&', 'a', 'p', 'o', 's', ';'] ++ escape_chars r : List Char) =
                '&' :: 'a' :: 'p' :: 'o' :: 's' :: ';' :: escape_chars r from rfl]
              rw [unescape_go_apos, ih f' (by omega)]
          · by_cases h5 : c = '"'
            · subst h5
              rw [show escape_char '"' = ['&', 'q', 'u', 'o', 't', ';'] from
                by decide] at hf ⊢
              simp only [List.length_append, List.length_cons] at hf
              cases f with
              | zero => omega
              | succ f' =>
                rw [show (['&', 'q', 'u', 'o', 't', ';'] ++ escape_chars r : List Char) =
                  '&' :: 'q' :: 'u' :: 'o' :: 't' :: ';' :: escape_chars r from rfl]
                rw [unescape_go_quot, ih f' (by omega)]
            · rw [show escape_char c = [c] from by
                unfold escape_char
                rw [if_neg h1, if_neg h2, if_neg h3, if_neg h4, if_neg h5]] at hf ⊢
              simp only [List.length_append, List.length_cons] at hf
              cases f with
              | zero => omega
              | succ f' =>
                rw [show ([c] ++ escape_chars r : List Char) =
                  c :: escape_chars r from rfl]
                rw [unescape_go_other f' c _ h1, ih f' (by omega)]

lemma unescape_escape_chars (l : List Char) :
    unescape_chars (escape_chars l) = l :=
  unescape_go_escape l (escape_chars l).length (le_refl _)

lemma well_go_amp (f : Nat) (E : List Char) :
    well_escaped_go (f + 1) ('&' :: 'a' :: 'm' :: 'p' :: ';' :: E) =
      well_escaped_go f E := by
  simp [well_escaped_go]

lemma well_go_lt (f : Nat) (E : List Char) :
    well_escaped_go (f + 1) ('&' :: 'l' :: 't' :: ';' :: E) =
      well_escaped_go f E := by
  simp [well_escaped_go]

lemma well_go_gt (f : Nat) (E : List Char) :
    well_escaped_go (f + 1) ('&' :: 'g' :: 't' :: ';' :: E) =
      well_escaped_go f E := by
  simp [well_escaped_go]

lemma well_go_apos (f : Nat) (E : List Char) :
    well_escaped_go (f + 1) ('&' :: 'a' :: 'p' :: 'o' :: 's' :: ';' :: E) =
      well_escaped_go f E := by
  simp [well_escaped_go]

lemma well_go_quot (f : Nat) (E : List Char) :
    well_escaped_go (f + 1) ('&' :: 'q' :: 'u' :: 'o' :: 't' :: ';' :: E) =
      well_escaped_go f E := by
  simp [well_escaped_go]

lemma well_go_other (f : Nat) (c : Char) (E : List Char) (h1 : c ≠ '&')
    (h2 : ¬(c = '<' ∨ c = '>' ∨ c = '\'' ∨ c = '"')) :
    well_escaped_go (f + 1) (c :: E) = well_escaped_go f E := by
  conv_lhs => rw [well_escaped_go]
  rw [if_neg h1, if_neg h2]

lemma well_go_escape :
    ∀ (l : List Char) (f : Nat), (escape_chars l).length ≤ f →
      well_escaped_go f (escape_chars l) = true := by
  intro l
  induction l with
  | nil => intro f _; cases f <;> rfl
  | cons c r ih =>
    intro f hf
    rw [escape_chars_cons] at hf ⊢
    by_cases h1 : c = '&'
    · subst h1
      rw [show escape_char '&' = ['&', 'a', 'm', 'p', ';'] from by decide] at hf ⊢
      simp only [List.length_append, List.length_cons] at hf
      cases f with
      | zero => omega
      | succ f' =>
        rw [show (['&', 'a', 'm', 'p', ';'] ++ escape_chars r : List Char) =
          '&' :: 'a' :: 'm' :: 'p' :: ';' :: escape_chars r from rfl]
        rw [well_go_amp, ih f' (by omega)]
    · by_cases h2 : c = '<'
      · subst h2
        rw [show escape_char '<' = ['&', 'l', 't', ';'] from by decide] at hf ⊢
        simp only [List.length_append, List.length_cons] at hf
        cases f with
        | zero => omega
        | succ f' =>
          rw [show (['&', 'l', 't', ';'] ++ escape_chars r : List Char) =
            '&' :: 'l' :: 't' :: ';' :: escape_chars r from rfl]
          rw [well_go_lt, ih f' (by omega)]
      · by_cases h3 : c = '>'
        · subst h3
          rw [show escape_char '>' = ['&', 'g', 't', ';'] from by decide] at hf ⊢
          simp only [List.length_append, List.length_cons] at hf
          cases f with
          | zero => omega
          | succ f' =>
            rw [show (['&', 'g', 't', ';'] ++ escape_chars r : List Char) =
              '&' :: 'g' :: 't' :: ';' :: escape_chars r from rfl]
            rw [well_go_gt, ih f' (by omega)]
        · by_cases h4 : c = '\''
          · subst h4
            rw [show escape_char '\'' = ['&', 'a', 'p', 'o', 's', ';'] from
              by decide] at hf ⊢
            simp only [List.length_append, List.length_cons] at hf
            cases f with
            | zero => omega
            | succ f' =>
              rw [show (['&', 'a', 'p', 'o', 's', ';'] ++ escape_chars r : List Char) =
                '&' :: 'a' :: 'p' :: 'o' :: 's' :: ';' :: escape_chars r from rfl]
              rw [well_go_apos, ih f' (by omega)]
          · by_cases h5 : c = '"'
            · subst h5
              rw [show escape_char '"' = ['&', 'q', 'u', 'o', 't', ';'] from
                by decide] at hf ⊢
              simp only [List.length_append, List.length_cons] at hf
              cases f with
              | zero => omega
              | succ f' =>
                rw [show (['&', 'q', 'u', 'o', 't', ';'] ++ escape_chars r : List Char) =
                  '&' :: 'q' :: 'u' :: 'o' :: 't' :: ';' :: escape_chars r from rfl]
                rw [well_go_quot, ih f' (by omega)]
            · rw [show escape_char c = [c] from by
                unfold escape_char
                rw [if_neg h1, if_neg h2, if_neg h3, if_neg h4, if_neg h5]] at hf ⊢
              simp only [List.length_append, List.length_cons] at hf
              cases f with
              | zero => omega
              | succ f' =>
                rw [show ([c] ++ escape_chars r : List Char) =
                  c :: escape_chars r from rfl]
                rw [well_go_other f' c _ h1 (by
                  intro hor
                  rcases hor with h | h | h | h
                  · exact h2 h
                  · exact h3 h
                  · exact h4 h
                  · exact h5 h)]
                exact ih f' (by omega)

lemma well_escaped_escape_chars (l : List Char) :
    well_escaped (escape_chars l) = true :=
  well_go_escape l (escape_chars l).length (le_refl _)

lemma escape_chars_no_raw (l : List Char) :
    ∀ c ∈ escape_chars l, c ≠ '<' ∧ c ≠ '>' ∧ c ≠ '\'' ∧ c ≠ '"' := by
  intro c hc
  rw [escape_chars, List.mem_flatMap] at hc
  obtain ⟨a, _, hca⟩ := hc
  unfold escape_char at hca
  split_ifs at hca with h1 h2 h3 h4 h5
  · fin_cases hca <;> decide
  · fin_cases hca <;> decide
  · fin_cases hca <;> decide
  · fin_cases hca <;> decide
  · fin_cases hca <;> decide
  · simp only [List.mem_singleton] at hca
    subst hca
    exact ⟨h2, h3, h4, h5⟩

/-! Serializer layout. -/

/-- Claim-side description of one serialized waypoint entry: a place
without coordinates contributes nothing; otherwise the `wpt` element
carries the first coordinate as the `lon` attribute and the second as the
`lat` attribute, the escaped name element, and a `desc` element exactly
when the description is non-empty. -/
def wpt_entry (p : Place) : String :=
  match p.coords with
  | none => ""
  | some (lon, lat) =>
    "  <wpt lon=\"" ++ lon ++ "\" lat=\"" ++ lat ++ "\">\n" ++
      "    <name>" ++ xml_escape p.name ++ "</name>\n" ++
      (if p.desc = "" then ""
       else "    <desc>" ++ xml_escape p.desc ++ "</desc>\n") ++
      "  </wpt>\n"

lemma str_foldl_append (l : List String) :
    ∀ acc : String, l.foldl (· ++ ·) acc = acc ++ l.foldl (· ++ ·) "" := by
  induction l with
  | nil => intro acc; simp [List.foldl, String.append_empty]
  | cons a l ih =>
    intro acc
    rw [List.foldl_cons, List.foldl_cons, ih (acc ++ a), ih ("" ++ a),
      String.empty_append, String.append_assoc]

lemma str_join_cons (a : String) (l : List String) :
    String.join (a :: l) = a ++ String.join l := by
  show (a :: l).foldl (· ++ ·) "" = a ++ l.foldl (· ++ ·) ""
  rw [List.foldl_cons, str_foldl_append l ("" ++ a), String.empty_append]

lemma gpx_fold (places : List Place) :
    ∀ acc : String,
      places.foldl (fun acc p =>
        match p.coords with
        | none => acc
        | some (lon, lat) =>
          let acc1 := acc ++ "  <wpt lon=\"" ++ lon ++ "\" lat=\"" ++ lat ++
            "\">\n" ++ "    <name>" ++ xml_escape p.name ++ "</name>\n"
          let acc2 := if p.desc = "" then acc1
            else acc1 ++ "    <desc>" ++ xml_escape p.desc ++ "</desc>\n"
          acc2 ++ "  </wpt>\n") acc =
      acc ++ String.join ((places.filter (fun p => p.coords.isSome)).map wpt_entry) := by
  induction places with
  | nil =>
    intro acc
    rw [show String.join (([] : List Place).filter (fun p => p.coords.isSome)
        |>.map wpt_entry) = "" from rfl, String.append_empty, List.foldl_nil]
  | cons p rest ih =>
    intro acc
    rw [List.foldl_cons]
    cases hc : p.coords with
    | none =>
      rw [List.filter_cons]
      simp only [hc, Option.isSome_none, Bool.false_eq_true, if_false]
      exact ih acc
    | some c =>
      obtain ⟨lon, lat⟩ := c
      rw [List.filter_cons]
      simp only [hc, Option.isSome_some, if_true]
      rw [List.map_cons, str_join_cons]
      rw [ih]
      have hw : wpt_entry p =
          "  <wpt lon=\"" ++ lon ++ "\" lat=\"" ++ lat ++ "\">\n" ++
            "    <name>" ++ xml_escape p.name ++ "</name>\n" ++
            (if p.desc = "" then ""
             else "    <desc>" ++ xml_escape p.desc ++ "</desc>\n") ++
            "  </wpt>\n" := by
        unfold wpt_entry
        rw [hc]
      rw [hw]
      by_cases hd : p.desc = ""
      · simp only [hd, if_pos, if_true]
        simp only [String.append_assoc, String.append_empty, String.empty_append]
      · simp only [if_neg hd]
        simp only [String.append_assoc]

lemma write_places_eq (places : List Place) :
    write_places_to_gpx places =
      gpx_header ++
        String.join ((places.filter (fun p => p.coords.isSome)).map wpt_entry) ++
        gpx_trailer := by
  unfold write_places_to_gpx
  rw [gpx_fold places gpx_header]

lemma stage_result_swap (lookup : String → Option (List Coords)) (q : String) :
    stage_result (fun q => match lookup q with
      | none => some []
      | r => r) q = stage_result lookup q := by
  unfold stage_result
  rcases h : lookup q with _ | ⟨_ | ⟨c, l⟩⟩ <;> simp [h]

lemma resolver_spec_congr (l1 l2 : String → Option (List Coords))
    (h : ∀ q, stage_result l1 q = stage_result l2 q) (p : Place) :
    resolver_spec l1 p = resolver_spec l2 p := by
  unfold resolver_spec
  rw [h, h]

lemma mem_places_spec (g : Config) (n : Nat) (rows : List (List String))
    (p : Place) (hp : p ∈ (places_spec_from g n rows).1) :
    p.coords = none ∧ p.name ≠ "" ∧ p.addr ≠ "" ∧
      n ≤ p.lineno ∧ p.lineno < n + rows.length := by
  unfold places_spec_from at hp
  simp only [List.mem_filterMap] at hp
  obtain ⟨e, he, hpe⟩ := hp
  have he2 : e ∈ numbered n rows := (List.mem_filter.mp he).1
  obtain ⟨hl, hc, hnm, had⟩ := place_line_spec_inv g e.2 e.1 p hpe
  have hrange := mem_numbered rows n e he2
  refine ⟨hc, hnm, had, ?_, ?_⟩ <;> omega

/-!
Claim theorems. Each theorem settles one claim of the specification
against the embedded program.
-/

/-- C1: for every validated place the resolver first queries the lookup
with `"{name}, {address}"` and, on at least one candidate, assigns the
first candidate's coordinate pair and stops; otherwise it queries the
address alone and, on at least one candidate, assigns the first
candidate's pair; otherwise the coordinates stay absent and the
diagnostic naming the place's name, line number and address is printed.
A lookup error is treated exactly like an empty candidate list for that
stage (the result place and the performed queries are unchanged when
every error answer is replaced by an empty candidate list), so an error
in stage 1 does not prevent stage 2 from running and never aborts the
run. -/
theorem claim_resolver_two_stage (lookup : String → Option (List Coords))
    (p : Place) :
    (get_coordinates_step lookup p).1 = resolver_spec lookup p ∧
    (get_coordinates_step lookup p).2.1 =
      (if (stage_result lookup (p.name ++ ", " ++ p.addr)).isSome
       then [p.name ++ ", " ++ p.addr]
       else [p.name ++ ", " ++ p.addr, p.addr]) ∧
    (get_coordinates_step lookup p).2.2 =
      (geocode_address lookup (p.name ++ ", " ++ p.addr)).2 ++
        (if (stage_result lookup (p.name ++ ", " ++ p.addr)).isSome then []
         else (geocode_address lookup p.addr).2 ++
           (if (stage_result lookup p.addr).isSome then []
            else [miss_diag p.name p.lineno p.addr])) ∧
    (get_coordinates_step (fun q => match lookup q with
        | none => some []
        | r => r) p).1 = (get_coordinates_step lookup p).1 ∧
    (get_coordinates_step (fun q => match lookup q with
        | none => some []
        | r => r) p).2.1 = (get_coordinates_step lookup p).2.1 := by
  refine ⟨step_fst lookup p, step_queries lookup p, step_diags lookup p, ?_, ?_⟩
  · rw [step_fst, step_fst]
    exact resolver_spec_congr _ _ (fun q => stage_result_swap lookup q) p
  · rw [step_queries, step_queries, stage_result_swap]

/-- C2, counterexample: the claim says the collected column texts are
joined with the delimiter, but for the row `["", "x"]` with indices
`[1, 2]` the program yields `"x"` while joining the collected texts
`["", "x"]` with `", "` yields `", x"` (the program inserts the delimiter
only after a non-empty accumulation). -/
theorem claim_get_columns_join_counterexample :
    get_columns ["", "x"] [1, 2] ", " = some "x" ∧
    String.intercalate ", " ["", "x"] = ", x" ∧
    ("x" : String) ≠ ", x" := by
  refine ⟨by decide, by decide, by decide⟩

/-- C2, amended: for every row and configured list of 1-based column
indices, `get_columns` iterates the indices in order, stops collecting at
the first index out of range for the row without failing, and returns the
collected texts concatenated with the delimiter inserted before a part
only when the text accumulated so far is non-empty; an empty configured
list yields the empty string. -/
theorem claim_get_columns_amended (cols : List String) (subset : List Int)
    (d : String) (h : ∀ i ∈ subset, 1 ≤ i) :
    get_columns cols subset d = some (join_nonempty d (collected cols subset)) ∧
    get_columns cols [] d = some "" := by
  exact ⟨get_columns_pos cols subset d h, rfl⟩

theorem claim_get_columns_amended_witness :
    (∀ i ∈ ([1, 9, 2] : List Int), 1 ≤ i) ∧
      (get_columns ["a", "b"] [1, 9, 2] ", " =
        some (join_nonempty ", " (collected ["a", "b"] [1, 9, 2])) ∧
       get_columns ["a", "b"] [] ", " = some "") :=
  ⟨by decide, claim_get_columns_amended ["a", "b"] [1, 9, 2] ", " (by decide)⟩

lemma get_columns_loop_nonpos (cols : List String) (d : String) (i : Int)
    (h1 : i ≤ 0) (h2 : 1 - i ≤ (cols.length : Int)) (acc : String)
    (rest : List Int) :
    get_columns_loop cols d acc (i :: rest) =
      get_columns_loop cols d
        ((acc ++ (if acc = "" then "" else d)) ++ cols.reverse.getD (-i).toNat "")
        rest := by
  have hlen : ¬ ((cols.length : Int) ≤ i - 1) := by omega
  have hneg : i - 1 < 0 := by omega
  have hj : (0 : Int) ≤ i - 1 + cols.length := by omega
  have hidx : (i - 1 + (cols.length : Int)).toNat < cols.length := by omega
  have hrevidx : (-i).toNat < cols.length := by omega
  have hrevidx2 : (-i).toNat < cols.reverse.length := by
    rw [List.length_reverse]; exact hrevidx
  have hsame : cols.reverse.getD (-i).toNat "" =
      cols.getD (i - 1 + cols.length).toNat "" := by
    rw [List.getD_eq_getElem?_getD, List.getD_eq_getElem?_getD,
      List.getElem?_reverse hrevidx]
    have hix : cols.length - 1 - (-i).toNat =
        (i - 1 + (cols.length : Int)).toNat := by omega
    rw [hix]
  have hpy : pyIndex cols (i - 1) =
      some (cols.getD (i - 1 + cols.length).toNat "") := by
    unfold pyIndex
    simp only [hneg, if_true, hj, if_pos]
    rw [List.get?_eq_getElem?, List.getElem?_eq_getElem hidx,
      List.getD_eq_getElem?_getD, List.getElem?_eq_getElem hidx]
    rfl
  have hstep : get_columns_loop cols d acc (i :: rest) =
      get_columns_loop cols d
        ((acc ++ (if acc = "" then "" else d)) ++
          cols.getD (i - 1 + cols.length).toNat "") rest := by
    simp only [get_columns_loop, if_neg hlen, hpy]
  rw [hstep, hsame]

/-- C10, amended: a configured column index that is 0 or negative with
magnitude at most the row length MINUS ONE does not fail and does not
stop collecting: the 0-based conversion yields a negative index selecting
a column counted from the end of the row (index 0 selects the last
column), whose text is included in the field value; magnitude equal to
the row length, however, raises `IndexError` (see the counterexample). -/
theorem claim_negative_index_amended (cols : List String) (d : String)
    (i : Int) (h1 : i ≤ 0) (h2 : 1 - i ≤ (cols.length : Int)) :
    get_columns cols [i] d = some (cols.reverse.getD (-i).toNat "") ∧
    ∀ (acc : String) (rest : List Int),
      get_columns_loop cols d acc (i :: rest) =
        get_columns_loop cols d
          ((acc ++ (if acc = "" then "" else d)) ++
            cols.reverse.getD (-i).toNat "") rest := by
  constructor
  · unfold get_columns
    rw [if_neg (by simp), get_columns_loop_nonpos cols d i h1 h2 "" []]
    simp [get_columns_loop, String.empty_append]
  · exact get_columns_loop_nonpos cols d i h1 h2

theorem claim_negative_index_amended_witness :
    ((0 : Int) ≤ 0 ∧ 1 - (0 : Int) ≤ ((["a", "b"] : List String).length : Int)) ∧
    (get_columns ["a", "b"] [0] ", " =
        some ((["a", "b"] : List String).reverse.getD (-(0 : Int)).toNat "") ∧
      ∀ (acc : String) (rest : List Int),
        get_columns_loop ["a", "b"] ", " acc (0 :: rest) =
          get_columns_loop ["a", "b"] ", "
            ((acc ++ (if acc = "" then "" else ", ")) ++
              (["a", "b"] : List String).reverse.getD (-(0 : Int)).toNat "") rest) :=
  ⟨⟨by decide, by decide⟩,
    claim_negative_index_amended ["a", "b"] ", " 0 (by decide) (by decide)⟩

/-- C10, counterexample: the claim allows a non-positive configured index
of magnitude up to the row length, but index `-2` on the two-column row
`["a", "b"]` computes Python index `-3`, which is out of range from the
end and raises `IndexError` (modelled as `none`) instead of selecting a
column. -/
theorem claim_negative_index_counterexample :
    (-2 : Int) ≤ 0 ∧ ((-2 : Int)).natAbs ≤ (["a", "b"] : List String).length ∧
    get_columns ["a", "b"] [-2] ", " = none := by
  refine ⟨by decide, by decide, by decide⟩

/-- C3: the serializer writes exactly the fixed header, then one waypoint
entry per place that has coordinates — the first coordinate as the `lon`
attribute and the second as the `lat` attribute, order preserved
verbatim, an escaped name element, and a description element exactly when
the description is non-empty — then the fixed trailer; places without
coordinates contribute no entry and no error. -/
theorem claim_serializer_layout (places : List Place) :
    write_places_to_gpx places =
      gpx_header ++
        String.join ((places.filter (fun p => p.coords.isSome)).map wpt_entry) ++
        gpx_trailer ∧
    (∀ p : Place, p.coords = none → wpt_entry p = "") ∧
    (∀ (p : Place) (lon lat : String), p.coords = some (lon, lat) →
      ∃ dpart : String,
        wpt_entry p =
          "  <wpt lon=\"" ++ lon ++ "\" lat=\"" ++ lat ++ "\">\n" ++
            "    <name>" ++ xml_escape p.name ++ "</name>\n" ++ dpart ++
            "  </wpt>\n" ∧
        (dpart = "" ↔ p.desc = "") ∧
        (p.desc ≠ "" →
          dpart = "    <desc>" ++ xml_escape p.desc ++ "</desc>\n")) := by
  refine ⟨write_places_eq places, ?_, ?_⟩
  · intro p hp
    unfold wpt_entry
    rw [hp]
  · intro p lon lat hp
    refine ⟨if p.desc = "" then ""
      else "    <desc>" ++ xml_escape p.desc ++ "</desc>\n", ?_, ?_, ?_⟩
    · unfold wpt_entry
      rw [hp]
    · by_cases hd : p.desc = ""
      · simp [hd]
      · rw [if_neg hd]
        constructor
        · intro hcontra
          exfalso
          have hdata := congrArg String.data hcontra
          simp [String.append] at hdata
        · intro h
          exact absurd h hd
    · intro hd
      rw [if_neg hd]

theorem claim_serializer_layout_witness :
    ∃ dpart : String,
      wpt_entry ⟨1, "A", "N", "D", some ("1.5", "2.5")⟩ =
        "  <wpt lon=\"" ++ "1.5" ++ "\" lat=\"" ++ "2.5" ++ "\">\n" ++
          "    <name>" ++ xml_escape "N" ++ "</name>\n" ++ dpart ++
          "  </wpt>\n" ∧
      (dpart = "" ↔ ("D" : String) = "") ∧
      (("D" : String) ≠ "" → dpart = "    <desc>" ++ xml_escape "D" ++ "</desc>\n") :=
  (claim_serializer_layout []).2.2 ⟨1, "A", "N", "D", some ("1.5", "2.5")⟩
    "1.5" "2.5" rfl

/-- C4: for every extracted candidate record (a parsed row with at least
one column), validation rejects without failing exactly when the
extracted name or the extracted address is empty; on rejection the
diagnostic naming the line number and the (possibly empty) name and
address values is printed and no place is produced; otherwise the
validated place is produced with no diagnostic. -/
theorem claim_place_validation (g : Config) (columns : List String)
    (lineno : Nat) (hg : pos_cols g) (hcols : columns ≠ []) :
    ∃ ad nm de : String,
      get_columns columns g.addr_cols ", " = some ad ∧
      get_columns columns g.name_cols " " = some nm ∧
      get_columns columns g.desc_cols ", " = some de ∧
      get_place_from_line g columns lineno =
        some (if nm = "" ∨ ad = ""
              then (none, [ skip_diag lineno nm ad])
              else (some ⟨lineno, ad, nm, de, none⟩, [])) := by
  obtain ⟨ha, hn, hd⟩ := hg
  refine ⟨field_of columns g.addr_cols ", ", field_of columns g.name_cols " ",
    field_of columns g.desc_cols ", ",
    get_columns_pos _ _ _ ha, get_columns_pos _ _ _ hn,
    get_columns_pos _ _ _ hd, ?_⟩
  rw [get_place_from_line_pos g ⟨ha, hn, hd⟩ columns lineno]
  unfold place_line_spec
  have h0 : ¬ (columns.length = 0) := by
    intro h
    exact hcols (List.length_eq_zero.mp h)
  rw [if_neg h0]

theorem claim_place_validation_witness :
    (pos_cols ⟨[1], [2], [], none, false, false⟩ ∧
      (["", "Acme"] : List String) ≠ []) ∧
    ∃ ad nm de : String,
      get_columns ["", "Acme"] ([1] : List Int) ", " = some ad ∧
      get_columns ["", "Acme"] ([2] : List Int) " " = some nm ∧
      get_columns ["", "Acme"] ([] : List Int) ", " = some de ∧
      get_place_from_line ⟨[1], [2], [], none, false, false⟩ ["", "Acme"] 4 =
        some (if nm = "" ∨ ad = ""
              then (none, [ skip_diag 4 nm ad])
              else (some ⟨4, ad, nm, de, none⟩, [])) :=
  ⟨⟨by decide, by decide⟩,
    claim_place_validation ⟨[1], [2], [], none, false, false⟩ ["", "Acme"] 4
      (by decide) (by decide)⟩

/-- C5: escaping a name or description converts the five XML-reserved
characters into named entities only: the escaped text scans as entities
and ordinary characters (`well_escaped`), contains no raw `<`, `>`, `'`,
`"` at all, and decoding the entities yields the original string — the
escape/decode round trip is the identity on every text. -/
theorem claim_escape_roundtrip (s : String) :
    well_escaped (xml_escape s).data = true ∧
    xml_unescape (xml_escape s) = s ∧
    ∀ c ∈ (xml_escape s).data, c ≠ '<' ∧ c ≠ '>' ∧ c ≠ '\'' ∧ c ≠ '"' := by
  refine ⟨well_escaped_escape_chars s.data, ?_, escape_chars_no_raw s.data⟩
  show (⟨unescape_chars (escape_chars s.data)⟩ : String) = s
  rw [unescape_escape_chars]

theorem claim_escape_roundtrip_witness :
    ('a' ∈ (xml_escape "a&b<c>'\"").data) ∧
    ('a' ≠ '<' ∧ 'a' ≠ '>' ∧ 'a' ≠ '\'' ∧ 'a' ≠ '"') :=
  ⟨by decide, (claim_escape_roundtrip "a&b<c>'\"").2.2 'a' (by decide)⟩

/-- C6: with the dry-run flag set, `run` performs extraction and
validation, prints every retained place, and terminates before any
lookup is performed and before anything is written: no geocoding query is
issued and no output file content is produced. -/
theorem claim_dryrun_no_side_effects (g : Config)
    (lookup : String → Option (List Coords))
    (fileRows : List (List (List String))) (r : RunResult)
    (hd : g.dryrun = true) (hr : run g lookup fileRows = some r) :
    r.queries = [] ∧ r.written = none ∧ r.printedPlaces = r.places ∧
    extract_all g fileRows = some (r.places, r.diagnostics) := by
  cases he : extract_all g fileRows with
  | none =>
    unfold run at hr
    rw [he] at hr
    simp at hr
  | some pd =>
    obtain ⟨ps, ds⟩ := pd
    rw [run_dry g hd lookup fileRows ps ds he] at hr
    injection hr with h
    subst h
    exact ⟨rfl, rfl, rfl, rfl⟩

theorem claim_dryrun_no_side_effects_witness :
    ((⟨[1], [2], [], none, true, false⟩ : Config).dryrun = true ∧
      run ⟨[1], [2], [], none, true, false⟩ (fun _ => none) [[["A1", "N1"]]] =
        some ⟨[⟨1, "A1", "N1", "", none⟩], [⟨1, "A1", "N1", "", none⟩], [], [], none⟩) ∧
    ((⟨[⟨1, "A1", "N1", "", none⟩], [⟨1, "A1", "N1", "", none⟩], [], [], none⟩ :
        RunResult).queries = [] ∧
      (⟨[⟨1, "A1", "N1", "", none⟩], [⟨1, "A1", "N1", "", none⟩], [], [], none⟩ :
        RunResult).written = none ∧
      (⟨[⟨1, "A1", "N1", "", none⟩], [⟨1, "A1", "N1", "", none⟩], [], [], none⟩ :
        RunResult).printedPlaces =
        (⟨[⟨1, "A1", "N1", "", none⟩], [⟨1, "A1", "N1", "", none⟩], [], [], none⟩ :
          RunResult).places ∧
      extract_all ⟨[1], [2], [], none, true, false⟩ [[["A1", "N1"]]] =
        some ((⟨[⟨1, "A1", "N1", "", none⟩], [⟨1, "A1", "N1", "", none⟩], [], [],
          none⟩ : RunResult).places,
          (⟨[⟨1, "A1", "N1", "", none⟩], [⟨1, "A1", "N1", "", none⟩], [], [],
            none⟩ : RunResult).diagnostics)) :=
  ⟨⟨rfl, by decide⟩,
    claim_dryrun_no_side_effects ⟨[1], [2], [], none, true, false⟩
      (fun _ => none) [[["A1", "N1"]]] _ rfl (by decide)⟩

/-- C7: records are numbered starting at 1 and every record counts
toward the numbering, including skipped ones; with `skip_first_lines = N`
every record with number ≤ N is discarded before parsing, and `N` equal
to 0 or absent skips nothing; a record that parses to zero columns is
silently discarded, producing no place and no diagnostic. -/
theorem claim_csv_numbering (g : Config) (rows : List (List String))
    (hg : pos_cols g) :
    get_places_from_csv g rows = some (places_spec_from g 1 rows) ∧
    (∀ n : Nat, get_place_from_line g [] n = some (none, [])) ∧
    ((g.skip_first_lines = none ∨ g.skip_first_lines = some 0) →
      ∀ n : Nat, line_skipped g n = false) ∧
    (∀ N : Int, g.skip_first_lines = some N → N ≠ 0 →
      ∀ n : Nat, line_skipped g n = decide ((n : Int) ≤ N)) := by
  refine ⟨get_places_from_csv_pos g hg rows, fun n => rfl, ?_, ?_⟩
  · intro h n
    rcases h with h | h <;> simp [line_skipped, h]
  · intro N hN hN0 n
    simp [line_skipped, hN, hN0]

theorem claim_csv_numbering_witness :
    pos_cols ⟨[1], [2], [], some 1, false, false⟩ ∧
    (get_places_from_csv ⟨[1], [2], [], some 1, false, false⟩
        [["h1", "h2"], ["a1", "n1"], []] =
      some (places_spec_from ⟨[1], [2], [], some 1, false, false⟩ 1
        [["h1", "h2"], ["a1", "n1"], []]) ∧
      (∀ n : Nat, get_place_from_line ⟨[1], [2], [], some 1, false, false⟩ [] n =
        some (none, [])) ∧
      (((⟨[1], [2], [], some 1, false, false⟩ : Config).skip_first_lines = none ∨
          (⟨[1], [2], [], some 1, false, false⟩ : Config).skip_first_lines = some 0) →
        ∀ n : Nat,
          line_skipped ⟨[1], [2], [], some 1, false, false⟩ n = false) ∧
      (∀ N : Int,
        (⟨[1], [2], [], some 1, false, false⟩ : Config).skip_first_lines = some N →
        N ≠ 0 →
        ∀ n : Nat,
          line_skipped ⟨[1], [2], [], some 1, false, false⟩ n =
            decide ((n : Int) ≤ N))) :=
  ⟨by decide,
    claim_csv_numbering ⟨[1], [2], [], some 1, false, false⟩
      [["h1", "h2"], ["a1", "n1"], []] (by decide)⟩

/-- C8: every retained place has, at every stage, a non-empty name and
address (in particular never both empty): places entering the collection
carry no coordinates and validated fields; the final collection equals
the extracted one (dry-run) or its image under the single resolver pass,
which changes only the coordinates field — so coordinates, once set by
the resolver, are never overwritten by any later operation. -/
theorem claim_pipeline_invariants (g : Config)
    (lookup : String → Option (List Coords))
    (fileRows : List (List (List String))) (r : RunResult)
    (hg : pos_cols g) (hr : run g lookup fileRows = some r) :
    ∃ ext ds, extract_all g fileRows = some (ext, ds) ∧
      (∀ p ∈ ext, p.coords = none ∧ ¬(p.name = "" ∧ p.addr = "")) ∧
      r.places = (if g.dryrun then ext
                  else ext.map (fun p => (get_coordinates_step lookup p).1)) ∧
      (∀ p ∈ r.places, ¬(p.name = "" ∧ p.addr = "")) ∧
      (∀ p ∈ ext, ((get_coordinates_step lookup p).1).lineno = p.lineno ∧
        ((get_coordinates_step lookup p).1).addr = p.addr ∧
        ((get_coordinates_step lookup p).1).name = p.name ∧
        ((get_coordinates_step lookup p).1).desc = p.desc) := by
  have he := extract_all_pos g hg fileRows
  have hmem : ∀ p ∈ (fileRows.map (fun f => (places_spec_from g 1 f).1)).flatten,
      p.coords = none ∧ p.name ≠ "" ∧ p.addr ≠ "" := by
    intro p hp
    rw [List.mem_flatten] at hp
    obtain ⟨l, hl, hpl⟩ := hp
    rw [List.mem_map] at hl
    obtain ⟨f, _, rfl⟩ := hl
    have h := mem_places_spec g 1 f p hpl
    exact ⟨h.1, h.2.1, h.2.2.1⟩
  have hplaces : r.places =
      (if g.dryrun
       then (fileRows.map (fun f => (places_spec_from g 1 f).1)).flatten
       else ((fileRows.map (fun f => (places_spec_from g 1 f).1)).flatten).map
         (fun p => (get_coordinates_step lookup p).1)) := by
    cases hdb : g.dryrun with
    | true =>
      rw [run_dry g hdb lookup fileRows _ _ he] at hr
      injection hr with h
      subst h
      simp
    | false =>
      rw [run_wet g hdb lookup fileRows _ _ he] at hr
      injection hr with h
      subst h
      simp [get_coordinates]
  refine ⟨_, _, he, ?_, hplaces, ?_, fun p _ => step_preserves lookup p⟩
  · intro p hp
    obtain ⟨hc, hn, _⟩ := hmem p hp
    exact ⟨hc, fun hcon => hn hcon.1⟩
  · intro p hp
    rw [hplaces] at hp
    by_cases hd : g.dryrun = true
    · rw [if_pos hd] at hp
      obtain ⟨_, hn, _⟩ := hmem p hp
      exact fun hcon => hn hcon.1
    · rw [if_neg hd] at hp
      rw [List.mem_map] at hp
      obtain ⟨q, hq, rfl⟩ := hp
      obtain ⟨_, hn, _⟩ := hmem q hq
      have hpre := (step_preserves lookup q).2.2.1
      intro hcon
      rw [hpre] at hcon
      exact hn hcon.1

theorem claim_pipeline_invariants_witness :
    (pos_cols ⟨[1], [2], [], none, false, false⟩ ∧
      run ⟨[1], [2], [], none, false, false⟩ (fun _ => some [("1", "2")])
        [[["A1", "N1"]]] =
        some ⟨[⟨1, "A1", "N1", "", some ("1", "2")⟩], [], ["N1, A1"], [],
          some (write_places_to_gpx [⟨1, "A1", "N1", "", some ("1", "2")⟩])⟩) ∧
    ∃ ext ds,
      extract_all ⟨[1], [2], [], none, false, false⟩ [[["A1", "N1"]]] =
          some (ext, ds) ∧
      (∀ p ∈ ext, p.coords = none ∧ ¬(p.name = "" ∧ p.addr = "")) ∧
      (⟨[⟨1, "A1", "N1", "", some ("1", "2")⟩], [], ["N1, A1"], [],
        some (write_places_to_gpx [⟨1, "A1", "N1", "", some ("1", "2")⟩])⟩ :
          RunResult).places =
        (if (⟨[1], [2], [], none, false, false⟩ : Config).dryrun then ext
         else ext.map (fun p =>
           (get_coordinates_step (fun _ => some [("1", "2")]) p).1)) ∧
      (∀ p ∈ (⟨[⟨1, "A1", "N1", "", some ("1", "2")⟩], [], ["N1, A1"], [],
          some (write_places_to_gpx [⟨1, "A1", "N1", "", some ("1", "2")⟩])⟩ :
            RunResult).places, ¬(p.name = "" ∧ p.addr = "")) ∧
      (∀ p ∈ ext,
        ((get_coordinates_step (fun _ => some [("1", "2")]) p).1).lineno =
          p.lineno ∧
        ((get_coordinates_step (fun _ => some [("1", "2")]) p).1).addr =
          p.addr ∧
        ((get_coordinates_step (fun _ => some [("1", "2")]) p).1).name =
          p.name ∧
        ((get_coordinates_step (fun _ => some [("1", "2")]) p).1).desc =
          p.desc) :=
  ⟨⟨by decide, by decide⟩,
    claim_pipeline_invariants ⟨[1], [2], [], none, false, false⟩
      (fun _ => some [("1", "2")]) [[["A1", "N1"]]] _ (by decide) (by decide)⟩

/-- C9: the resulting place collection is the concatenation, in
file-argument order, of the places extracted from each file, each file
numbered from 1; every extracted place's line number lies between 1 and
its file's record count; in particular two files of three valid rows each
yield six places with per-file line numbers 1, 2, 3, 1, 2, 3. -/
theorem claim_multi_file_concat (g : Config) (hg : pos_cols g)
    (fileRows : List (List (List String))) :
    extract_all g fileRows =
      some ((fileRows.map (fun f => (places_spec_from g 1 f).1)).flatten,
            (fileRows.map (fun f => (places_spec_from g 1 f).2)).flatten) ∧
    (∀ (rows : List (List String)) (p : Place),
        p ∈ (places_spec_from g 1 rows).1 →
          1 ≤ p.lineno ∧ p.lineno ≤ rows.length) ∧
    ((extract_all ⟨[1], [2], [], none, false, false⟩
        [[["a1", "n1"], ["a2", "n2"], ["a3", "n3"]],
         [["b1", "m1"], ["b2", "m2"], ["b3", "m3"]]]).map
        (fun pr => pr.1.map Place.lineno) = some [1, 2, 3, 1, 2, 3]) := by
  refine ⟨extract_all_pos g hg fileRows, ?_, by decide⟩
  intro rows p hp
  have h := mem_places_spec g 1 rows p hp
  exact ⟨h.2.2.2.1, by omega⟩

theorem claim_multi_file_concat_witness :
    pos_cols ⟨[1], [2], [], none, false, false⟩ ∧
    (extract_all ⟨[1], [2], [], none, false, false⟩ [[["a1", "n1"]]] =
      some (([[["a1", "n1"]]].map
          (fun f => (places_spec_from ⟨[1], [2], [], none, false, false⟩ 1 f).1)).flatten,
        ([[["a1", "n1"]]].map
          (fun f => (places_spec_from ⟨[1], [2], [], none, false, false⟩ 1 f).2)).flatten) ∧
      (∀ (rows : List (List String)) (p : Place),
          p ∈ (places_spec_from ⟨[1], [2], [], none, false, false⟩ 1 rows).1 →
            1 ≤ p.lineno ∧ p.lineno ≤ rows.length) ∧
      ((extract_all ⟨[1], [2], [], none, false, false⟩
          [[["a1", "n1"], ["a2", "n2"], ["a3", "n3"]],
           [["b1", "m1"], ["b2", "m2"], ["b3", "m3"]]]).map
          (fun pr => pr.1.map Place.lineno) = some [1, 2, 3, 1, 2, 3])) :=
  ⟨by decide,
    claim_multi_file_concat ⟨[1], [2], [], none, false, false⟩ (by decide)
      [[["a1", "n1"]]]⟩

end Geocode
